import Mathlib

/-!
Shallow embedding of pyTMST (src/pyTMST/pyTMST.py) and verification of the
spec claims about its five top-level analysis entry points.

Modelling conventions:
* machine floats are modelled as exact rationals; a possibly-NaN float is
  modelled as Option ℚ with none = NaN (NaN propagates through addition and
  is never equal to 0 under the numpy comparison x == 0);
* numpy arrays are Lean lists; 2-D accumulation grids are functions
  GridF a = Nat -> Nat -> a together with an explicit row count, and a row
  write models numpy indexing (negative wrap-around, IndexError when out of
  range);
* fallible Python code returns Except PyErr; a raise maps to Except.error;
* the collaborator modules (pyTMST.utils, pyLTFAT, pyAMT, pyYIN) are not part
  of the core source; they are modelled from the spec's interface contracts
  (spec section 6) as fields of a Collab structure, i.e. as arbitrary
  deterministic functions of the declared shapes;
* Python 3 round() is round-half-to-even (pyRound below).
-/

set_option allowUnsafeReducibility true in
attribute [semireducible] Rat.mul Rat.add Rat.sub Rat.div Rat.inv Rat.ofScientific

namespace PyTMST

/-- Error kinds raised by the embedded code. invalidInput / invalidRange are
the two ValueError raise sites of the entry-point validation; indexError
models numpy/python IndexError; broadcastError models a numpy shape-mismatch
ValueError; emptyMax models max()/np.max() on an empty sequence; nameError
models use of a loop variable when the loop never ran. -/
inductive PyErr where
  | invalidInput
  | invalidRange
  | indexError
  | broadcastError
  | emptyMax
  | nameError
deriving DecidableEq

/-- A dynamically typed Python argument: a numpy array, a numeric scalar, or
some other object (e.g. a string), as discriminated by the isinstance checks
at the entry points. -/
inductive PyV where
  | arr (v : List ℚ)
  | num (q : ℚ)
  | strv (s : String)
deriving DecidableEq

/-- Lines 36-39 / 57-60 / 106-109 of pyTMST.py: `isinstance` checks raising
ValueError "Invalid input types.", then `fs <= 0` raising ValueError
"fs must be a positive scalar.". On success returns the typed pair. -/
def checkInputs (sig fs : PyV) : Except PyErr (List ℚ × ℚ) :=
  match sig, fs with
  | PyV.arr s, PyV.num q =>
      if q ≤ 0 then Except.error PyErr.invalidRange else Except.ok (s, q)
  | _, _ => Except.error PyErr.invalidInput

/-- Floor of a rational, in executable form (numerator by denominator with
Euclidean integer division). -/
def ratFloor (q : ℚ) : ℤ := q.num / (q.den : ℤ)

/-- ratFloor agrees with the mathematical floor. -/
theorem ratFloor_eq (q : ℚ) : ratFloor q = ⌊q⌋ := Rat.floor_def.symm

/-- Python 3 round(): round half to even. -/
def pyRound (q : ℚ) : ℤ :=
  if q - (ratFloor q : ℚ) < 1/2 then ratFloor q
  else if (1 : ℚ)/2 < q - (ratFloor q : ℚ) then ratFloor q + 1
  else if ratFloor q % 2 = 0 then ratFloor q else ratFloor q + 1

/-- The fixed window shift of both scalograms, 0.1 s (lines 74/86/169/180). -/
def shiftQ : ℚ := 1/10

/-- The DC-adjacent probe frequency of the two-point window queries, 0.01 Hz
(lines 92/189). -/
def probeFreq : ℚ := 1/100

/-- Lines 73/85/168/179: window_length = window_NT * (1/f_spectra[ifreq]). -/
def windowLength (windowNT f : ℚ) : ℚ := windowNT * (1 / f)

/-- Lines 78/94/173/192: round(window_length / 2 / shift). -/
def halfShift (wl : ℚ) : ℤ := pyRound (wl / 2 / shiftQ)

/-- Lines 41/62/111/135: t = np.arange(1, len(sig)+1) / fs. -/
def timeAxis (n : ℕ) (fs : ℚ) : List ℚ :=
  (List.range n).map (fun i => ((i + 1 : ℕ) : ℚ) / fs)

/-- Checked 1-D positive-index access, numpy IndexError when out of range. -/
def npGetL {α : Type} (l : List α) (i : ℕ) : Except PyErr α :=
  match l.get? i with
  | some x => Except.ok x
  | none => Except.error PyErr.indexError

/-- A 2-D accumulation grid as a total cell function (row, column). -/
def GridF (α : Type) : Type := ℕ → ℕ → α

/-- Pointwise update of one grid cell. -/
def updG {α : Type} (g : GridF α) (r c : ℕ) (v : α) : GridF α :=
  fun i j => if i = r ∧ j = c then v else g i j

/-- Resolve a (possibly negative) numpy row index against a row count:
0 ≤ i < dim resolves to i, -dim ≤ i < 0 wraps to dim + i, anything else is
an IndexError. -/
def npRow (dim : ℕ) (i : ℤ) : Except PyErr ℕ :=
  if 0 ≤ i ∧ i < (dim : ℤ) then Except.ok i.toNat
  else if -(dim : ℤ) ≤ i ∧ i < 0 then Except.ok ((dim : ℤ) + i).toNat
  else Except.error PyErr.indexError

/-- grid[i, j] = v with numpy row-index semantics. -/
def setAt {α : Type} (dim : ℕ) (g : GridF α) (i : ℤ) (j : ℕ) (v : α) :
    Except PyErr (GridF α) :=
  match npRow dim i with
  | Except.ok r => Except.ok (updG g r j v)
  | Except.error e => Except.error e

/-- t[::k] for a rational array: elements at indices 0, k, 2k, ...; for
k ≥ 1 this has length ceil(len/k) = (len + k - 1) / k. (k = 0 is a Python
ValueError and is excluded by hypotheses wherever stride is used.) -/
def strideQ (l : List ℚ) (k : ℕ) : List ℚ :=
  (List.range ((l.length + k - 1) / k)).map (fun i => l.getD (i * k) 0)

/-- Boolean-mask selection a[m] for a 1-D array: numpy raises IndexError
when the mask length differs from the array length. -/
def boolMask {α : Type} (l : List α) (m : List Bool) : Except PyErr (List α) :=
  if l.length = m.length then
    Except.ok (((l.zip m).filter (fun p => p.2)).map (fun p => p.1))
  else Except.error PyErr.indexError

/-- Lines 131/157: f0[ap0 > ap0_thresh] = np.nan. The boolean mask comes
from ap0, so numpy requires len ap0 = len f0. -/
def gateByAp (f0 : List ℚ) (ap : List ℚ) (th : ℚ) :
    Except PyErr (List (Option ℚ)) :=
  if f0.length = ap.length then
    Except.ok ((f0.zip ap).map (fun p => if th < p.2 then none else some p.1))
  else Except.error PyErr.indexError

/-- np.mean of a 1-D array (empty arrays do not occur in the verified runs). -/
def listMean (l : List ℚ) : ℚ := l.sum / (l.length : ℚ)

/-- numpy matrix transpose of a rectangular 2-D array. -/
def transposeM (m : List (List ℚ)) : List (List ℚ)  :=
  (List.range (m.headD []).length).map (fun j => m.map (fun row => row.getD j 0))

/-- np.mean(M, axis=0): per-column means. -/
def colMeans (m : List (List ℚ)) : List ℚ :=
  (List.range (m.headD []).length).map
    (fun j => listMean (m.map (fun row => row.getD j 0)))

/-- 2-D numpy broadcasting of one axis: equal, or one side is 1. -/
def bshape (a b : ℕ) : Option ℕ :=
  if a = b then some a else if a = 1 then some b
  else if b = 1 then some a else none

/-- Elementwise binary numpy operation on 2-D arrays with broadcasting;
Except.error broadcastError models the ValueError numpy raises when the
shapes are incompatible. -/
def np2op (op : ℚ → ℚ → ℚ) (A B : List (List ℚ)) :
    Except PyErr (List (List ℚ)) :=
  match bshape A.length B.length, bshape (A.headD []).length (B.headD []).length with
  | some r, some k =>
      Except.ok ((List.range r).map (fun i => (List.range k).map (fun j =>
        op ((A.getD (if A.length = 1 then 0 else i) []).getD
              (if (A.headD []).length = 1 then 0 else j) 0)
           ((B.getD (if B.length = 1 then 0 else i) []).getD
              (if (B.headD []).length = 1 then 0 else j) 0))))
  | _, _ => Except.error PyErr.broadcastError

/-- Effectful map over a list in the Except monad (left to right,
first error wins), mirroring a Python for-loop that builds per-channel
results. -/
def exMapM {α β : Type} (f : α → Except PyErr β) : List α → Except PyErr (List β)
  | [] => Except.ok []
  | x :: xs => do
      let y ← f x
      let ys ← exMapM f xs
      Except.ok (y :: ys)

/-- max(dims) / np.max(dims): error on an empty list. -/
def maxList : List ℤ → Except PyErr ℤ
  | [] => Except.error PyErr.emptyMax
  | x :: xs => Except.ok (xs.foldl max x)

/-- np.zeros((dim, n)) needs a nonnegative first dimension. -/
def toDim (z : ℤ) : Except PyErr ℕ :=
  if z < 0 then Except.error PyErr.invalidRange else Except.ok z.toNat

/-- Float addition with NaN propagation: NaN + x = NaN. -/
def addCell : Option ℚ → ℚ → Option ℚ
  | some a, x => some (a + x)
  | none, _ => none

/-- One cell of grid[grid == 0] = np.nan: an exact zero becomes NaN; NaN
compares unequal to 0 and is left alone. -/
def nanCell : Option ℚ → Option ℚ
  | some a => if a = 0 then none else some a
  | none => none

/-- One iteration of lines 97-98: AMsgram += AMspec followed by
AMsgram[AMsgram == 0] = np.nan, applied pointwise. -/
def accumStep (g : GridF (Option ℚ)) (s : GridF ℚ) : GridF (Option ℚ) :=
  fun i j => nanCell (addCell (g i j) (s i j))

/-- The channel accumulation loop of AMa_scalogram (lines 82-98) applied to
the per-channel grids, starting from np.zeros. -/
def accumFrom (specs : List (GridF ℚ)) : GridF (Option ℚ) :=
  specs.foldl accumStep (fun _ _ => some 0)

/-- grid[grid == 0] = np.nan applied pointwise to a whole grid
(line 195 of f0M_scalogram). -/
def nanifyG (g : GridF (Option ℚ)) : GridF (Option ℚ) :=
  fun i j => nanCell (g i j)

/-- Sum of the contributions of the first k channels at one grid cell. -/
def partSum (specs : List (GridF ℚ)) (i j k : ℕ) : ℚ :=
  ((specs.take k).map (fun g => g i j)).sum

/-- Success test for an Except value. -/
def isOkE {α : Type} : Except PyErr α → Bool
  | Except.ok _ => true
  | Except.error _ => false

/-- The external collaborators of the core (spec section 6), modelled from
the spec's interface contracts: pyAMT.auditory_filterbank returns
(responses[Nchan,T], fc[Nchan]); scipy hilbert magnitude acts per row;
pyLTFAT.aud_filt_bw; utils.define_modulation_axis returns (freqs[Nmod],
edges); utils.periodogram returns power at the query frequencies;
utils.segment_into_windows segments with fixed shift (two monomorphic
copies, for plain and possibly-NaN arrays); pyAMT
king2019_modfilterbank_updated on the time-major envelope returns
(filtered[Nchan, Nmod, T], mf[Nmod], extra); np.sqrt; pyYIN.mock_yin
returns equal-length (logf0, aperiodicity) tracks; np.power(2, .);
utils.remove_artifacts is length preserving; utils.lombscargle returns
(freqs, power); utils.interpmean bins by piecewise mean. -/
structure Collab where
  auditory_filterbank : List ℚ → ℚ → ℚ → ℚ → List (List ℚ) × List ℚ
  env : List ℚ → List ℚ
  aud_filt_bw : List ℚ → List ℚ
  define_modulation_axis : ℚ → ℚ → ℕ → List ℚ × List ℚ
  periodogram : List ℚ → ℚ → List ℚ → List ℚ
  segment_windows : List ℚ → ℚ → ℚ → ℚ → Bool → List (List ℚ)
  segment_windows_f0 : List (Option ℚ) → ℚ → ℚ → ℚ → Bool → List (List (Option ℚ))
  king_modfilterbank : List (List ℚ) → ℚ → ℚ → ℚ → ℕ → ℚ → List (List (List ℚ)) × List ℚ × List ℚ
  sqrtQ : ℚ → ℚ
  mock_yin : List ℚ → ℚ → ℚ → ℚ → ℚ → ℕ → List ℚ × List ℚ
  pow2 : ℚ → ℚ
  remove_artifacts : List (Option ℚ) → ℚ → ℚ → ℚ → ℚ × ℚ → ℚ × ℚ → ℚ → List (Option ℚ)
  lombscargle : List ℚ → List (Option ℚ) → List ℚ → List ℚ × List (Option ℚ)
  interpmean : List ℚ → List (Option ℚ) → List ℚ → List (Option ℚ)

/-- AMa_spec_params namedtuple (line 29). -/
structure AMaSpecParams where
  t : List ℚ
  f_bw : List ℚ
  gamma_responses : List (List ℚ)
  E : List (List ℚ)
  mf : List ℚ
  mfb : List ℚ
deriving DecidableEq

/-- AMa_scalogram_params namedtuple (line 30). -/
structure AMaSgramParams where
  t : List ℚ
  f_bw : List ℚ
  gamma_responses : List (List ℚ)
  E : List (List ℚ)
  scale : List ℚ
  fc : List ℚ
deriving DecidableEq

/-- AMi_spec_params namedtuple (line 31). -/
structure AMiSpecParams where
  t : List ℚ
  f_bw : List ℚ
  gamma_responses : List (List ℚ)
  E : List (List ℚ)
  mf : List ℚ
  AMrms : List (List ℚ)
  DC : List ℚ
deriving DecidableEq

/-- f0M_spec_params namedtuple (line 32). -/
structure F0MSpecParams where
  t : List ℚ
  f0 : List (Option ℚ)
  mf : List ℚ
  mfb : List ℚ
deriving DecidableEq

/-- Return tuple of AMa_spectrum (line 53). AMspec is stored as the list of
its columns: AMspec[j] is the channel-j column assigned at line 50
(AMspec[:, ichan] = 2 * Pxx), so entry (i, j) of the source matrix is
AMspec[j][i]. -/
structure AMaSpecRet where
  AMspec : List (List ℚ)
  fc : List ℚ
  f_spectra : List ℚ
  step : AMaSpecParams
deriving DecidableEq

/-- Return tuple of AMa_scalogram (line 102). -/
structure AMaSgramRet where
  AMsgram : GridF (Option ℚ)
  fc : List ℚ
  f_spectra : List ℚ
  step : AMaSgramParams

/-- Return tuple of AMi_spectrum (line 123). AMIspec is row-major. -/
structure AMiSpecRet where
  AMIspec : List (List ℚ)
  fc : List ℚ
  mf : List ℚ
  step : AMiSpecParams
deriving DecidableEq

/-- Return tuple of f0M_spectrum (line 149). -/
structure F0MSpecRet where
  spectrum : List (Option ℚ)
  f_spectra : List ℚ
  step : F0MSpecParams
deriving DecidableEq

/-- Return tuple of f0M_scalogram (line 197): only the grid and the axis. -/
structure F0MSgramRet where
  f0Msgram : GridF (Option ℚ)
  f_spectra : List ℚ

/-- One column of the AMa_spectrum matrix (lines 48-50): Pxx =
periodogram(E[ichan, :], fs, f_spectra); AMspec[:, ichan] = 2 * Pxx. The
column assignment requires len Pxx = number of rows of AMspec, which is
len f_spectra (line 47). -/
def AMaSpecCol (c : Collab) (E : List (List ℚ)) (fsq : ℚ) (axis : List ℚ)
    (ichan : ℕ) : Except PyErr (List ℚ) := do
  let Erow ← npGetL E ichan
  let Pxx := c.periodogram Erow fsq axis
  if Pxx.length = axis.length then Except.ok (Pxx.map (fun x => 2 * x))
  else Except.error PyErr.broadcastError

/-- AMa_spectrum (lines 35-53). -/
def AMa_spectrumE (c : Collab) (sig fs : PyV) (mfmin mfmax : ℚ)
    (modbank_Nmod : ℕ) (fminq fmaxq : ℚ) : Except PyErr AMaSpecRet := do
  let sv ← checkInputs sig fs
  let sigv := sv.1
  let fsq := sv.2
  let t := timeAxis sigv.length fsq
  let fb := c.auditory_filterbank sigv fsq fminq fmaxq
  let gamma := fb.1
  let fc := fb.2
  let E := gamma.map c.env
  let ax := c.define_modulation_axis mfmin mfmax modbank_Nmod
  let fsp := ax.1
  let fspI := ax.2
  let Nchan := fc.length
  let cols ← exMapM (AMaSpecCol c E fsq fsp) (List.range Nchan)
  Except.ok ⟨cols, fc, fsp, ⟨t, c.aud_filt_bw fc, gamma, E, fsp, fspI⟩⟩

/-- n_windows for one (channel row, ifreq) pair of AMa_scalogram
(lines 73-76 and 85-88): f = f_spectra[ifreq] (IndexError if the axis is
shorter than modbank_Nmod), then the window count of
segment_into_windows(E[ichan,:], fs, window_NT*(1/f), 0.1, True). -/
def wcAM (c : Collab) (Erow : List ℚ) (fsq wNT : ℚ) (axis : List ℚ)
    (ifreq : ℕ) : Except PyErr ℕ := do
  let f ← npGetL axis ifreq
  Except.ok (c.segment_windows Erow fsq (windowLength wNT f) shiftQ true).length

/-- The constant row offset round(window_length / 2 / shift) used at
lines 78 and 94 for frequency index ifreq. -/
def offAM (wNT : ℚ) (axis : List ℚ) (ifreq : ℕ) : Except PyErr ℤ := do
  let f ← npGetL axis ifreq
  Except.ok (halfShift (windowLength wNT f))

/-- One window body of the AMa_scalogram fill loop (lines 91-94): temp =
windows[iwin]; Efft = 2 * periodogram(temp, fs, [0.01, f])[1]; index = iwin
+ round(window_length/2/shift). Returns (row index, value written). -/
def bodyAM (c : Collab) (Erow : List ℚ) (fsq wNT : ℚ) (axis : List ℚ)
    (ifreq iwin : ℕ) : Except PyErr (ℤ × ℚ) := do
  let f ← npGetL axis ifreq
  let wl := windowLength wNT f
  let windows := c.segment_windows Erow fsq wl shiftQ true
  let temp ← npGetL windows iwin
  let Pxx := c.periodogram temp fsq [probeFreq, f]
  let p ← npGetL Pxx 1
  Except.ok ((iwin : ℤ) + halfShift wl, 2 * p)

/-- The per-frequency block of sizing-pass entries (lines 72-78 / 167-174):
for each ifreq in the given list, for each iwin < n_windows, the entry
iwin + round(window_length/2/shift) + 1, in loop order. -/
def sizingDims (wc : ℕ → Except PyErr ℕ) (off : ℕ → Except PyErr ℤ) :
    List ℕ → Except PyErr (List ℤ)
  | [] => Except.ok []
  | i :: rest => do
      let n ← wc i
      let o ← off i
      let ds ← sizingDims wc off rest
      Except.ok ((List.range n).map (fun w : ℕ => (w : ℤ) + o + 1) ++ ds)

/-- Sizing pass of AMa_scalogram over all channels (lines 70-79). -/
def AMaDimsAll (c : Collab) (E : List (List ℚ)) (fsq wNT : ℚ)
    (axis : List ℚ) (nmod : ℕ) : List ℕ → Except PyErr (List ℤ)
  | [] => Except.ok []
  | ch :: rest => do
      let Erow ← npGetL E ch
      let d ← sizingDims (wcAM c Erow fsq wNT axis) (offAM wNT axis) (List.range nmod)
      let ds ← AMaDimsAll c E fsq wNT axis nmod rest
      Except.ok (d ++ ds)

/-- Inner window loop of a scalogram fill pass: each body result (idx, v)
is written by grid[idx, ifreq] = v. -/
def fillWins {α : Type} (dim : ℕ) (body : ℕ → Except PyErr (ℤ × α))
    (ifreq : ℕ) : GridF α → List ℕ → Except PyErr (GridF α)
  | g, [] => Except.ok g
  | g, w :: ws => do
      let iv ← body w
      let g2 ← setAt dim g iv.1 ifreq iv.2
      fillWins dim body ifreq g2 ws

/-- Outer frequency loop of a scalogram fill pass. -/
def fillFreqs {α : Type} (dim : ℕ) (wc : ℕ → Except PyErr ℕ)
    (bodyOf : ℕ → ℕ → Except PyErr (ℤ × α)) :
    GridF α → List ℕ → Except PyErr (GridF α)
  | g, [] => Except.ok g
  | g, i :: rest => do
      let n ← wc i
      let g2 ← fillWins dim (bodyOf i) i g (List.range n)
      fillFreqs dim wc bodyOf g2 rest

/-- Per-channel AMspec grid of AMa_scalogram (lines 83-95), starting from
np.zeros((dim, modbank_Nmod)). -/
def AMaChanGrid (c : Collab) (Erow : List ℚ) (fsq wNT : ℚ) (axis : List ℚ)
    (nmod dim : ℕ) : Except PyErr (GridF ℚ) :=
  fillFreqs dim (wcAM c Erow fsq wNT axis) (bodyAM c Erow fsq wNT axis)
    (fun _ _ => 0) (List.range nmod)

/-- The per-channel grids of AMa_scalogram for the given channel indices,
in loop order. -/
def AMaSpecsList (c : Collab) (E : List (List ℚ)) (fsq wNT : ℚ)
    (axis : List ℚ) (nmod dim : ℕ) : List ℕ → Except PyErr (List (GridF ℚ))
  | [] => Except.ok []
  | ch :: rest => do
      let Erow ← npGetL E ch
      let s ← AMaChanGrid c Erow fsq wNT axis nmod dim
      let ss ← AMaSpecsList c E fsq wNT axis nmod dim rest
      Except.ok (s :: ss)

/-- The value of the Python variable n_windows after the fill loops
(used at line 100): the window count of the final (ichan = Nchan-1,
ifreq = modbank_Nmod-1) iteration; NameError if the loops never ran. -/
def lastNWindows (c : Collab) (E : List (List ℚ)) (fsq wNT : ℚ)
    (axis : List ℚ) (nmod Nchan : ℕ) : Except PyErr ℕ :=
  if Nchan = 0 ∨ nmod = 0 then Except.error PyErr.nameError
  else do
    let Erow ← npGetL E (Nchan - 1)
    wcAM c Erow fsq wNT axis (nmod - 1)

/-- AMa_scalogram (lines 56-102). The grid accumulation with the zero-to-NaN
replacement inside the channel loop is accumFrom. -/
def AMa_scalogramE (c : Collab) (sig fs : PyV) (wNT mfmin mfmax : ℚ)
    (modbank_Nmod : ℕ) (fminq fmaxq : ℚ) : Except PyErr AMaSgramRet := do
  let sv ← checkInputs sig fs
  let sigv := sv.1
  let fsq := sv.2
  let _t0 := timeAxis sigv.length fsq
  let fb := c.auditory_filterbank sigv fsq fminq fmaxq
  let gamma := fb.1
  let fc := fb.2
  let E := gamma.map c.env
  let fsp := (c.define_modulation_axis mfmin mfmax modbank_Nmod).1
  let Nchan := fc.length
  let dims ← AMaDimsAll c E fsq wNT fsp modbank_Nmod (List.range Nchan)
  let dimZ ← maxList dims
  let dim ← toDim dimZ
  let specs ← AMaSpecsList c E fsq wNT fsp modbank_Nmod dim (List.range Nchan)
  let AMsgram := accumFrom specs
  let nlast ← lastNWindows c E fsq wNT fsp modbank_Nmod Nchan
  let t := (List.range nlast).map (fun i => ((i + 1 : ℕ) : ℚ) * shiftQ)
  Except.ok ⟨AMsgram, fc, fsp, ⟨t, c.aud_filt_bw fc, gamma, E, fsp, fc⟩⟩

/-- AMi_spectrum (lines 105-123). The modulation filterbank is applied to
the transposed (time-major) envelope; AMrms = sqrt(mean(AMfilt^2, axis=2))
* sqrt(2) over the (Nchan, Nmod, T) filter output; DC = mean(E.T, axis=0);
AMIspec = AMrms.T / (DC[:, None] * np.ones(len mf)) with full numpy
broadcasting semantics. -/
def AMi_spectrumE (c : Collab) (sig fs : PyV) (mfmin mfmax : ℚ)
    (modbank_Nmod : ℕ) (Qf fminq fmaxq : ℚ) : Except PyErr AMiSpecRet := do
  let sv ← checkInputs sig fs
  let sigv := sv.1
  let fsq := sv.2
  let t := timeAxis sigv.length fsq
  let fb := c.auditory_filterbank sigv fsq fminq fmaxq
  let gamma := fb.1
  let fc := fb.2
  let E := gamma.map c.env
  let km := c.king_modfilterbank (transposeM E) fsq mfmin mfmax modbank_Nmod Qf
  let AMfilt := km.1
  let mf := km.2.1
  let AMrms := AMfilt.map (fun ch => ch.map
    (fun band => c.sqrtQ (listMean (band.map (fun x => x * x))) * c.sqrtQ 2))
  let DC := colMeans (transposeM E)
  let denom ← np2op (fun a b => a * b) (DC.map (fun d => [d])) [List.replicate mf.length 1]
  let AMIspec ← np2op (fun a b => a / b) (transposeM AMrms) denom
  Except.ok ⟨AMIspec, fc, mf, ⟨t, c.aud_filt_bw fc, gamma, E, mf, AMrms, DC⟩⟩

/-- Lines 128-132 / 154-158, shared by both f0M pipelines: mock_yin, Hz
conversion f0 = 440 * 2^f0, aperiodicity gating, remove_artifacts with
frequency bounds (fmin, fmax), ratio bounds (.4, 2.5) and max gap 1500. -/
def f0Track (c : Collab) (sigv : List ℚ) (fs fminq fmaxq yth : ℚ) (u : ℕ)
    (ap0th maxj mind : ℚ) : Except PyErr (List (Option ℚ)) := do
  let yr := c.mock_yin sigv fs fminq fmaxq yth u
  let f0h := yr.1.map (fun x => 440 * c.pow2 x)
  let f0m ← gateByAp f0h yr.2 ap0th
  Except.ok (c.remove_artifacts f0m (fs / (u : ℚ)) maxj mind (fminq, fmaxq) (2/5, 5/2) 1500)

/-- f0M_spectrum (lines 126-149). -/
def f0M_spectrumE (c : Collab) (sigv : List ℚ) (fs mfmin mfmax : ℚ)
    (modbank_Nmod u : ℕ) (fminq fmaxq yth ap0th maxj mind : ℚ) :
    Except PyErr F0MSpecRet := do
  let _w_len := -(ratFloor (fs / (-fminq)))
  let f0c ← f0Track c sigv fs fminq fmaxq yth u ap0th maxj mind
  let f0_wo_nan := f0c.filterMap id
  let t := timeAxis sigv.length fs
  let t_u := strideQ t u
  let t_tr := t_u.take f0c.length
  let t_wo_nan ← boolMask t_tr (f0c.map Option.isSome)
  let ax := c.define_modulation_axis mfmin mfmax modbank_Nmod
  let fsp := ax.1
  let fspI := ax.2
  let lomb := c.lombscargle t_wo_nan (f0_wo_nan.map some) fsp
  let raw2 := lomb.2.map (Option.map (fun x => 2 * x))
  let spec := c.interpmean fsp raw2 fspI
  let t_f0 := (List.range f0c.length).map (fun i => ((i + 1 : ℕ) : ℚ) / (fs / (u : ℚ)))
  Except.ok ⟨spec, fsp, ⟨t_f0, f0c, fsp, fspI⟩⟩

/-- n_windows for one frequency of f0M_scalogram (lines 168-171 / 179-183):
segment_into_windows(f0, fs_yin, window_NT*(1/f), 0.1, False). -/
def wcF0 (c : Collab) (f0c : List (Option ℚ)) (fsYin wNT : ℚ)
    (axis : List ℚ) (ifreq : ℕ) : Except PyErr ℕ := do
  let f ← npGetL axis ifreq
  Except.ok (c.segment_windows_f0 f0c fsYin (windowLength wNT f) shiftQ false).length

/-- The constant row offset round(window_length / 2 / shift) of
f0M_scalogram for frequency index ifreq (lines 173/192). -/
def offF0 (wNT : ℚ) (axis : List ℚ) (ifreq : ℕ) : Except PyErr ℤ := do
  let f ← npGetL axis ifreq
  Except.ok (halfShift (windowLength wNT f))

/-- One window body of the f0M_scalogram fill loop (lines 186-192):
lombscargle of the iwin-th (f0 window, time window) pair at
[0.01, f_spectra[ifreq]], keep element 1, scale by 2 (NaN-propagating),
write at iwin + round(window_length/2/shift). -/
def bodyF0 (c : Collab) (f0c : List (Option ℚ)) (tYin : List ℚ)
    (fsYin wNT : ℚ) (axis : List ℚ) (ifreq iwin : ℕ) :
    Except PyErr (ℤ × Option ℚ) := do
  let f ← npGetL axis ifreq
  let wl := windowLength wNT f
  let windows := c.segment_windows_f0 f0c fsYin wl shiftQ false
  let tWindows := c.segment_windows tYin fsYin wl shiftQ false
  let f0Temp ← npGetL windows iwin
  let tTemp ← npGetL tWindows iwin
  let lomb := c.lombscargle tTemp f0Temp [probeFreq, f]
  let v ← npGetL lomb.2 1
  Except.ok ((iwin : ℤ) + halfShift wl, Option.map (fun x => 2 * x) v)

/-- f0M_scalogram (lines 152-197). -/
def f0M_scalogramE (c : Collab) (sigv : List ℚ) (fs wNT mfmin mfmax : ℚ)
    (modbank_Nmod u : ℕ) (fminq fmaxq yth ap0th maxj mind : ℚ) :
    Except PyErr F0MSgramRet := do
  let _w_len := -(ratFloor (fs / (-fminq)))
  let f0c ← f0Track c sigv fs fminq fmaxq yth u ap0th maxj mind
  let fsp := (c.define_modulation_axis mfmin mfmax modbank_Nmod).1
  let fsYin := fs / (u : ℚ)
  let tYin := (List.range f0c.length).map (fun i => ((i + 1 : ℕ) : ℚ) / fsYin)
  let dims ← sizingDims (wcF0 c f0c fsYin wNT fsp) (offF0 wNT fsp) (List.range modbank_Nmod)
  let dimZ ← maxList dims
  let dim ← toDim dimZ
  let grid ← fillFreqs dim (wcF0 c f0c fsYin wNT fsp) (bodyF0 c f0c tYin fsYin wNT fsp)
    (fun _ _ => some 0) (List.range modbank_Nmod)
  Except.ok ⟨nanifyG grid, fsp⟩

/-- Tags for the components of a top-level return statement. -/
inductive RetItem where
  | primary
  | chanFreqs
  | axis
  | bundle
deriving DecidableEq

/-- Line 53: return AMspec, fc, f_spectra, step. -/
def AMa_spectrum_returns : List RetItem :=
  [RetItem.primary, RetItem.chanFreqs, RetItem.axis, RetItem.bundle]

/-- Line 102: return AMsgram, fc, f_spectra, step. -/
def AMa_scalogram_returns : List RetItem :=
  [RetItem.primary, RetItem.chanFreqs, RetItem.axis, RetItem.bundle]

/-- Line 123: return AMIspec, fc, mf, step. -/
def AMi_spectrum_returns : List RetItem :=
  [RetItem.primary, RetItem.chanFreqs, RetItem.axis, RetItem.bundle]

/-- Line 149: return f0M_spectrum, f_spectra, step. -/
def f0M_spectrum_returns : List RetItem :=
  [RetItem.primary, RetItem.axis, RetItem.bundle]

/-- Line 197: return f0Msgram, f_spectra. -/
def f0M_scalogram_returns : List RetItem :=
  [RetItem.primary, RetItem.axis]

/-! Concrete collaborator instances, used only to instantiate witnesses and
counterexamples. cW honours the spec contracts of section 6 on the inputs
at which it is evaluated: two auditory channels, a one-point modulation
axis, whole-row windows, length-matching periodogram and lombscargle
outputs, a one-sample pitch track. -/

/-- A small concrete collaborator assignment for witnesses; its periodogram
distinguishes the zero envelope row from nonzero rows so that one channel
can contribute an exact-zero power estimate. -/
def cW : Collab where
  auditory_filterbank := fun _ _ _ _ => ([[0], [1]], [100, 200])
  env := fun row => row
  aud_filt_bw := fun fc => fc
  define_modulation_axis := fun _ _ _ => ([1], [1/2, 2])
  periodogram := fun temp _ freqs =>
    if temp = [(0 : ℚ)] then freqs.map (fun _ => 0) else freqs.map (fun _ => 1/2)
  segment_windows := fun row _ _ _ _ => [row]
  segment_windows_f0 := fun row _ _ _ _ => [row]
  king_modfilterbank := fun _ _ _ _ _ _ =>
    ([[[1], [1], [1]], [[1], [1], [1]]], [1, 2, 3], [])
  sqrtQ := fun x => x
  mock_yin := fun _ _ _ _ _ _ => ([0], [0])
  pow2 := fun _ => 1
  remove_artifacts := fun l _ _ _ _ _ _ => l
  lombscargle := fun _ _ freqs => (freqs, freqs.map (fun x => some x))
  interpmean := fun _ y _ => y

/-- Decidable equality of embedded run results, used to evaluate concrete
runs inside witnesses and counterexamples. -/
instance exceptDecEq {ε α : Type} [DecidableEq ε] [DecidableEq α] :
    DecidableEq (Except ε α) := fun x y =>
  match x, y with
  | Except.ok a, Except.ok b =>
      if h : a = b then isTrue (by rw [h])
      else isFalse (fun hh => h (by cases hh; rfl))
  | Except.ok _, Except.error _ => isFalse (fun hh => by cases hh)
  | Except.error _, Except.ok _ => isFalse (fun hh => by cases hh)
  | Except.error e, Except.error e2 =>
      if h : e = e2 then isTrue (by rw [h])
      else isFalse (fun hh => h (by cases hh; rfl))

/-- Helper: the shared validation block rejects any call in which fs is not
numeric or sig is not an array. -/
theorem checkInputs_invalidInput (sig fs : PyV)
    (h : (∀ q, fs ≠ PyV.num q) ∨ (∀ v, sig ≠ PyV.arr v)) :
    checkInputs sig fs = Except.error PyErr.invalidInput := by
  cases sig with
  | arr v =>
      cases fs with
      | arr w => rfl
      | strv s => rfl
      | num q =>
          rcases h with h | h
          · exact absurd rfl (h q)
          · exact absurd rfl (h v)
  | num n => cases fs <;> rfl
  | strv s => cases fs <;> rfl

/-- Helper: the shared validation block rejects a nonpositive numeric fs. -/
theorem checkInputs_invalidRange (v : List ℚ) (q : ℚ) (hq : q ≤ 0) :
    checkInputs (PyV.arr v) (PyV.num q) = Except.error PyErr.invalidRange := by
  simp [checkInputs, hq]

/-- C8: AMa_spectrum fails with the InvalidInput-class error ("Invalid input
types.") whenever fs is not numeric, and with the InvalidRange-class error
("fs must be a positive scalar.") whenever fs is numeric but fs ≤ 0. In the
embedding both checks form the first monadic step of AMa_spectrumE, so the
error is produced before any collaborator is invoked and no partial result
exists. -/
theorem AMa_spectrum_fs_validation (c : Collab) (sig fs : PyV)
    (mfmin mfmax : ℚ) (nmod : ℕ) (fminq fmaxq : ℚ) :
    ((∀ q, fs ≠ PyV.num q) →
      AMa_spectrumE c sig fs mfmin mfmax nmod fminq fmaxq =
        Except.error PyErr.invalidInput)
    ∧ (∀ sigv q, sig = PyV.arr sigv → fs = PyV.num q → q ≤ 0 →
      AMa_spectrumE c sig fs mfmin mfmax nmod fminq fmaxq =
        Except.error PyErr.invalidRange) := by
  constructor
  · intro h
    unfold AMa_spectrumE
    rw [checkInputs_invalidInput sig fs (Or.inl h)]
    rfl
  · intro sigv q hs hq hle
    subst hs; subst hq
    unfold AMa_spectrumE
    rw [checkInputs_invalidRange sigv q hle]
    rfl

/-- Witness for C8 at a concrete call: a string fs and a negative fs. -/
theorem AMa_spectrum_fs_validation_witness :
    AMa_spectrumE cW (PyV.arr [1]) (PyV.strv "48000") (1/2) 200 200 70 6700 =
      Except.error PyErr.invalidInput
    ∧ AMa_spectrumE cW (PyV.arr [1]) (PyV.num (-1)) (1/2) 200 200 70 6700 =
      Except.error PyErr.invalidRange := by
  constructor
  · exact (AMa_spectrum_fs_validation cW (PyV.arr [1]) (PyV.strv "48000")
      (1/2) 200 200 70 6700).1 (fun q h => by cases h)
  · exact (AMa_spectrum_fs_validation cW (PyV.arr [1]) (PyV.num (-1))
      (1/2) 200 200 70 6700).2 [1] (-1) rfl rfl (by norm_num)

/-- C2 (amended): AMa_spectrum, AMa_scalogram and AMi_spectrum validate
eagerly — a non-numeric fs or non-array sig yields the InvalidInput-class
error and a nonpositive numeric fs the InvalidRange-class error, before any
collaborator runs; the f0M entry points perform no such validation (see the
counterexample theorem). -/
theorem AM_entries_validate :
    (∀ (c : Collab) sig fs mfmin mfmax nmod fminq fmaxq,
      ((∀ q, fs ≠ PyV.num q) ∨ (∀ v, sig ≠ PyV.arr v)) →
      AMa_spectrumE c sig fs mfmin mfmax nmod fminq fmaxq =
        Except.error PyErr.invalidInput)
    ∧ (∀ (c : Collab) sigv q mfmin mfmax nmod fminq fmaxq, q ≤ 0 →
      AMa_spectrumE c (PyV.arr sigv) (PyV.num q) mfmin mfmax nmod fminq fmaxq =
        Except.error PyErr.invalidRange)
    ∧ (∀ (c : Collab) sig fs wNT mfmin mfmax nmod fminq fmaxq,
      ((∀ q, fs ≠ PyV.num q) ∨ (∀ v, sig ≠ PyV.arr v)) →
      AMa_scalogramE c sig fs wNT mfmin mfmax nmod fminq fmaxq =
        Except.error PyErr.invalidInput)
    ∧ (∀ (c : Collab) sigv q wNT mfmin mfmax nmod fminq fmaxq, q ≤ 0 →
      AMa_scalogramE c (PyV.arr sigv) (PyV.num q) wNT mfmin mfmax nmod fminq fmaxq =
        Except.error PyErr.invalidRange)
    ∧ (∀ (c : Collab) sig fs mfmin mfmax nmod Qf fminq fmaxq,
      ((∀ q, fs ≠ PyV.num q) ∨ (∀ v, sig ≠ PyV.arr v)) →
      AMi_spectrumE c sig fs mfmin mfmax nmod Qf fminq fmaxq =
        Except.error PyErr.invalidInput)
    ∧ (∀ (c : Collab) sigv q mfmin mfmax nmod Qf fminq fmaxq, q ≤ 0 →
      AMi_spectrumE c (PyV.arr sigv) (PyV.num q) mfmin mfmax nmod Qf fminq fmaxq =
        Except.error PyErr.invalidRange) := by
  refine ⟨?_, ?_, ?_, ?_, ?_, ?_⟩
  · intro c sig fs mfmin mfmax nmod fminq fmaxq h
    unfold AMa_spectrumE; rw [checkInputs_invalidInput sig fs h]; rfl
  · intro c sigv q mfmin mfmax nmod fminq fmaxq hq
    unfold AMa_spectrumE; rw [checkInputs_invalidRange sigv q hq]; rfl
  · intro c sig fs wNT mfmin mfmax nmod fminq fmaxq h
    unfold AMa_scalogramE; rw [checkInputs_invalidInput sig fs h]; rfl
  · intro c sigv q wNT mfmin mfmax nmod fminq fmaxq hq
    unfold AMa_scalogramE; rw [checkInputs_invalidRange sigv q hq]; rfl
  · intro c sig fs mfmin mfmax nmod Qf fminq fmaxq h
    unfold AMi_spectrumE; rw [checkInputs_invalidInput sig fs h]; rfl
  · intro c sigv q mfmin mfmax nmod Qf fminq fmaxq hq
    unfold AMi_spectrumE; rw [checkInputs_invalidRange sigv q hq]; rfl

/-- Witness for the amended C2 theorem at concrete calls. -/
theorem AM_entries_validate_witness :
    AMa_spectrumE cW (PyV.arr [1]) (PyV.strv "x") (1/2) 200 200 70 6700 =
      Except.error PyErr.invalidInput
    ∧ AMa_spectrumE cW (PyV.arr [1]) (PyV.num 0) (1/2) 200 200 70 6700 =
      Except.error PyErr.invalidRange
    ∧ AMa_scalogramE cW (PyV.strv "sig") (PyV.num 2) 1 (1/2) 200 200 70 6700 =
      Except.error PyErr.invalidInput
    ∧ AMa_scalogramE cW (PyV.arr [1]) (PyV.num (-2)) 1 (1/2) 200 200 70 6700 =
      Except.error PyErr.invalidRange
    ∧ AMi_spectrumE cW (PyV.arr [1]) (PyV.arr [2]) (1/2) 200 200 1 70 6700 =
      Except.error PyErr.invalidInput
    ∧ AMi_spectrumE cW (PyV.arr [1]) (PyV.num 0) (1/2) 200 200 1 70 6700 =
      Except.error PyErr.invalidRange :=
  ⟨AM_entries_validate.1 cW (PyV.arr [1]) (PyV.strv "x") (1/2) 200 200 70 6700
      (Or.inl (fun q h => by cases h)),
   AM_entries_validate.2.1 cW [1] 0 (1/2) 200 200 70 6700 (by norm_num),
   AM_entries_validate.2.2.1 cW (PyV.strv "sig") (PyV.num 2) 1 (1/2) 200 200 70 6700
      (Or.inr (fun v h => by cases h)),
   AM_entries_validate.2.2.2.1 cW [1] (-2) 1 (1/2) 200 200 70 6700 (by norm_num),
   AM_entries_validate.2.2.2.2.1 cW (PyV.arr [1]) (PyV.arr [2]) (1/2) 200 200 1 70 6700
      (Or.inl (fun q h => by cases h)),
   AM_entries_validate.2.2.2.2.2 cW [1] 0 (1/2) 200 200 1 70 6700 (by norm_num)⟩

/-- C2 counterexample: the claim asserts that *every* entry point, including
f0M_spectrum and f0M_scalogram, rejects a non-positive sample rate before
invoking any collaborator. With fs = -1 (≤ 0) both f0M pipelines run to
completion and return a full result: lines 126-149 and 152-197 contain no
validation at all, the pitch tracker collaborator is invoked with the bad
fs and a complete spectrum/scalogram is produced. -/
theorem f0M_no_validation_cex :
    isOkE (f0M_spectrumE cW [1] (-1) (1/2) 200 1 20 60 550 (1/5) (4/5) 10 (2/25)) = true
    ∧ isOkE (f0M_scalogramE cW [1] (-1) 1 (1/2) 200 1 20 60 550 (1/5) (4/5) 10 (2/25)) = true
    ∧ ((-1 : ℚ) ≤ 0) := by
  refine ⟨by decide, by decide, by norm_num⟩

/-- C4 counterexample: line 197 of the source is `return f0Msgram, f_spectra`
— a two-component tuple with no diagnostics bundle (no f0M-scalogram
namedtuple even exists), refuting the claim that f0M_scalogram returns an
auxiliary per-stage diagnostics bundle. -/
theorem f0M_scalogram_no_bundle_cex :
    f0M_scalogram_returns.contains RetItem.bundle = false
    ∧ f0M_scalogram_returns.length = 2 := by
  decide

/-- C4 (amended): AMa_spectrum, AMa_scalogram, AMi_spectrum and f0M_spectrum
each return a diagnostics bundle (their fourth resp. third component, the
`step` namedtuple) alongside the primary result and the frequency axis;
f0M_scalogram alone returns only the scalogram and the modulation axis,
with no bundle. -/
theorem diagnostics_bundle_returns :
    AMa_spectrum_returns.contains RetItem.bundle = true
    ∧ AMa_scalogram_returns.contains RetItem.bundle = true
    ∧ AMi_spectrum_returns.contains RetItem.bundle = true
    ∧ f0M_spectrum_returns.contains RetItem.bundle = true
    ∧ f0M_scalogram_returns.contains RetItem.bundle = false := by
  decide

/-- C3: the claim says AMi_spectrum returns an Nmod-by-Nchan matrix with
entry (i, j) = sqrt 2 * RMS_t(AMfilt[j, i, :]) / mean_t(E[j, :]). With the
modulation filterbank honouring its spec contract shape (Nchan, Nmod, T) —
here Nchan = 2, Nmod = 3 — line 120 divides AMrms.T of shape (Nmod, Nchan)
by DC[:, None] * ones(Nmod) of shape (Nchan, Nmod); the shapes do not
broadcast, so the code raises instead of returning the claimed matrix. -/
theorem AMi_broadcast_failure :
    AMi_spectrumE cW (PyV.arr [1]) (PyV.num 1) (1/2) 200 3 1 70 6700 =
      Except.error PyErr.broadcastError := by
  decide

/-- C7: in both scalogram fill loops the per-window estimate — twice the
target-frequency element of the two-point [0.01 Hz, f] query — is written
at row index iwin + round((window_NT / f) / 2 / 0.1): the window bodies of
AMa_scalogram and f0M_scalogram produce exactly that (row, value) pair,
and fillWins writes each body result at its row in column ifreq. -/
theorem scalogram_window_placement (c : Collab) (Erow : List ℚ)
    (f0c : List (Option ℚ)) (tYin : List ℚ) (fsq fsYin wNT : ℚ)
    (axis : List ℚ) (ifreq iwin : ℕ) (f : ℚ)
    (hf : npGetL axis ifreq = Except.ok f) :
    (∀ temp p,
      npGetL (c.segment_windows Erow fsq (windowLength wNT f) shiftQ true) iwin =
        Except.ok temp →
      npGetL (c.periodogram temp fsq [probeFreq, f]) 1 = Except.ok p →
      bodyAM c Erow fsq wNT axis ifreq iwin =
        Except.ok ((iwin : ℤ) + pyRound (wNT / f / 2 / (1/10)), 2 * p))
    ∧ (∀ f0Temp tTemp v,
      npGetL (c.segment_windows_f0 f0c fsYin (windowLength wNT f) shiftQ false) iwin =
        Except.ok f0Temp →
      npGetL (c.segment_windows tYin fsYin (windowLength wNT f) shiftQ false) iwin =
        Except.ok tTemp →
      npGetL (c.lombscargle tTemp f0Temp [probeFreq, f]).2 1 = Except.ok v →
      bodyF0 c f0c tYin fsYin wNT axis ifreq iwin =
        Except.ok ((iwin : ℤ) + pyRound (wNT / f / 2 / (1/10)),
          Option.map (fun x => 2 * x) v)) := by
  have hwl : windowLength wNT f = wNT / f := mul_one_div wNT f
  constructor
  · intro temp p htemp hp
    unfold bodyAM
    rw [hf]
    show (npGetL (c.segment_windows Erow fsq (windowLength wNT f) shiftQ true) iwin
      >>= _) = _
    rw [htemp]
    show (npGetL (c.periodogram temp fsq [probeFreq, f]) 1 >>= _) = _
    rw [hp]
    show Except.ok ((iwin : ℤ) + halfShift (windowLength wNT f), 2 * p) = _
    rw [halfShift, hwl, shiftQ]
  · intro f0Temp tTemp v h0 ht hv
    unfold bodyF0
    rw [hf]
    show (npGetL (c.segment_windows_f0 f0c fsYin (windowLength wNT f) shiftQ false) iwin
      >>= _) = _
    rw [h0]
    show (npGetL (c.segment_windows tYin fsYin (windowLength wNT f) shiftQ false) iwin
      >>= _) = _
    rw [ht]
    show (npGetL (c.lombscargle tTemp f0Temp [probeFreq, f]).2 1 >>= _) = _
    rw [hv]
    show Except.ok ((iwin : ℤ) + halfShift (windowLength wNT f),
      Option.map (fun x => 2 * x) v) = _
    rw [halfShift, hwl, shiftQ]

/-- Bind of a successful Except computation. -/
theorem exBind_ok {α β : Type} (a : α) (f : α → Except PyErr β) :
    (Except.ok a >>= f) = f a := rfl

/-- Bind of a failed Except computation. -/
theorem exBind_error {α β : Type} (e : PyErr) (f : α → Except PyErr β) :
    ((Except.error e : Except PyErr α) >>= f) = Except.error e := rfl

/-- One channel-accumulation step of lines 97-98 at a single cell. -/
def stepCell (v : Option ℚ) (x : ℚ) : Option ℚ := nanCell (addCell v x)

/-- Once a cell is NaN it stays NaN through the remaining channels. -/
theorem foldl_stepCell_none (L : List ℚ) : L.foldl stepCell none = none := by
  induction L with
  | nil => rfl
  | cons x xs ih => simpa [stepCell, addCell, nanCell] using ih

/-- Value of one cell after folding the per-channel contributions with the
in-loop zero-to-NaN replacement: the cell holds the running sum as long as
every partial sum stays nonzero, and collapses to NaN (permanently) the
first time a partial sum hits exactly zero. -/
theorem foldl_stepCell_some (L : List ℚ) : ∀ a : ℚ,
    L.foldl stepCell (some a) =
      if ∀ k, k < L.length + 1 → 0 < k → a + (L.take k).sum ≠ 0
      then some (a + L.sum) else none := by
  induction L with
  | nil =>
      intro a
      rw [if_pos]
      · simp
      · intro k hk hk0; simp only [List.length_nil] at hk; omega
  | cons x xs ih =>
      intro a
      by_cases h0 : a + x = 0
      · have hstep : stepCell (some a) x = none := by
          simp [stepCell, addCell, nanCell, h0]
        rw [List.foldl_cons, hstep, foldl_stepCell_none, if_neg]
        intro hall
        have h1 := hall 1 (by simp only [List.length_cons]; omega) (by omega)
        simp only [List.take_succ_cons, List.take_zero, List.sum_cons,
          List.sum_nil, add_zero] at h1
        exact h1 h0
      · have hstep : stepCell (some a) x = some (a + x) := by
          simp [stepCell, addCell, nanCell, h0]
        rw [List.foldl_cons, hstep, ih (a + x)]
        have hiff : (∀ k, k < xs.length + 1 → 0 < k → a + x + (xs.take k).sum ≠ 0)
            ↔ (∀ k, k < (x :: xs).length + 1 → 0 < k →
                a + ((x :: xs).take k).sum ≠ 0) := by
          constructor
          · intro hp k hk hk0
            obtain ⟨j, rfl⟩ : ∃ j, k = j + 1 := ⟨k - 1, by omega⟩
            rw [List.take_succ_cons, List.sum_cons, ← add_assoc]
            rcases Nat.eq_zero_or_pos j with hj | hj
            · subst hj; simpa using h0
            · exact hp j (by simpa [List.length_cons] using hk) hj
          · intro hp k hk hk0
            have := hp (k + 1) (by simp [List.length_cons]; omega) (by omega)
            rw [List.take_succ_cons, List.sum_cons, ← add_assoc] at this
            exact this
        refine if_congr hiff ?_ rfl
        rw [List.sum_cons, ← add_assoc]

/-- The whole-grid channel fold restricted to one cell is the cell-level
fold of the per-channel contributions at that cell. -/
theorem accumFold_cell (specs : List (GridF ℚ)) :
    ∀ (g0 : GridF (Option ℚ)) (i j : ℕ),
    (specs.foldl accumStep g0) i j =
      (specs.map (fun s => s i j)).foldl stepCell (g0 i j) := by
  induction specs with
  | nil => intro g0 i j; rfl
  | cons s rest ih =>
      intro g0 i j
      rw [List.foldl_cons, List.map_cons, List.foldl_cons, ih]
      rfl

/-- Cell-level description of the AMa_scalogram accumulation (lines 81-98):
a cell reads the arithmetic sum over channels exactly when every
channel-partial sum at that cell is nonzero, and reads NaN otherwise — in
particular a cell never written by any channel (all contributions zero)
reads NaN. -/
theorem accumFrom_cell (specs : List (GridF ℚ)) (i j : ℕ) :
    accumFrom specs i j =
      if ∀ k, k < specs.length + 1 → 0 < k → partSum specs i j k ≠ 0
      then some (partSum specs i j specs.length) else none := by
  have h1 : accumFrom specs i j =
      (specs.map (fun s => s i j)).foldl stepCell (some 0) :=
    accumFold_cell specs (fun _ _ => some 0) i j
  have hps : ∀ k, partSum specs i j k =
      ((specs.map (fun s => s i j)).take k).sum := by
    intro k
    rw [partSum, List.map_take]
  rw [h1, foldl_stepCell_some]
  simp only [zero_add]
  have hlen : (specs.map (fun s => s i j)).length = specs.length :=
    List.length_map specs _
  rw [hlen]
  refine if_congr ?_ ?_ rfl
  · constructor
    · intro hp k hk hk0; rw [hps]; exact hp k hk hk0
    · intro hp k hk hk0; rw [← hps]; exact hp k hk hk0
  · rw [hps specs.length, ← hlen, List.take_length]

/-- Projection of the scalogram cell (i, j) out of a finished run. -/
def sgramCell (x : Except PyErr AMaSgramRet) (i j : ℕ) : Option (Option ℚ) :=
  match x with
  | Except.ok r => some (r.AMsgram i j)
  | Except.error _ => none

/-- C1 counterexample: with two channels whose per-window estimates at cell
(5, 0) are 0 (channel 0, a measured zero power) and 1 (channel 1), both
channels write the cell, so the claim says it reads the channel sum 0 + 1.
The code's zero-to-NaN replacement runs inside the channel loop (line 98),
so the cell is NaN-poisoned after channel 0 and reads NaN, not 1. -/
theorem AMa_scalogram_zero_cell_cex :
    bodyAM cW [0] 1 1 [1] 0 0 = Except.ok (5, 0)
    ∧ bodyAM cW [1] 1 1 [1] 0 0 = Except.ok (5, 1)
    ∧ sgramCell (AMa_scalogramE cW (PyV.arr [1]) (PyV.num 1) 1 (1/2) 2 1 70 6700) 5 0
        = some none
    ∧ (some (none : Option ℚ) == some (some ((0 : ℚ) + 1))) = false := by
  refine ⟨by decide, by decide, by decide, by decide⟩

/-- C1 (amended): on every successful AMa_scalogram run, a cell of the
returned grid reads the arithmetic sum over all channels of the per-channel
per-window estimates exactly when every channel-prefix partial sum at that
cell is nonzero; all other cells — in particular every cell never written
by any (channel, frequency, window) combination, whose contributions are
all zero — read NaN. -/
theorem AMa_scalogram_cell_accum (c : Collab) (sig fs : PyV) (sigv : List ℚ)
    (fsq wNT mfmin mfmax : ℚ) (nmod : ℕ) (fminq fmaxq : ℚ)
    (dims : List ℤ) (dimZ : ℤ) (dim : ℕ) (specs : List (GridF ℚ)) (nlast : ℕ)
    (hsig : sig = PyV.arr sigv) (hfs : fs = PyV.num fsq) (hpos : ¬ fsq ≤ 0)
    (hdims : AMaDimsAll c ((c.auditory_filterbank sigv fsq fminq fmaxq).1.map c.env)
        fsq wNT (c.define_modulation_axis mfmin mfmax nmod).1 nmod
        (List.range (c.auditory_filterbank sigv fsq fminq fmaxq).2.length) =
          Except.ok dims)
    (hmax : maxList dims = Except.ok dimZ)
    (hdim : toDim dimZ = Except.ok dim)
    (hspecs : AMaSpecsList c ((c.auditory_filterbank sigv fsq fminq fmaxq).1.map c.env)
        fsq wNT (c.define_modulation_axis mfmin mfmax nmod).1 nmod dim
        (List.range (c.auditory_filterbank sigv fsq fminq fmaxq).2.length) =
          Except.ok specs)
    (hlast : lastNWindows c ((c.auditory_filterbank sigv fsq fminq fmaxq).1.map c.env)
        fsq wNT (c.define_modulation_axis mfmin mfmax nmod).1 nmod
        (c.auditory_filterbank sigv fsq fminq fmaxq).2.length = Except.ok nlast) :
    ∃ r, AMa_scalogramE c sig fs wNT mfmin mfmax nmod fminq fmaxq = Except.ok r
      ∧ ∀ i j, r.AMsgram i j =
          (if ∀ k, k < specs.length + 1 → 0 < k → partSum specs i j k ≠ 0
           then some (partSum specs i j specs.length) else none) := by
  subst hsig; subst hfs
  refine ⟨⟨accumFrom specs, (c.auditory_filterbank sigv fsq fminq fmaxq).2,
    (c.define_modulation_axis mfmin mfmax nmod).1,
    ⟨(List.range nlast).map (fun i => ((i + 1 : ℕ) : ℚ) * shiftQ),
      c.aud_filt_bw (c.auditory_filterbank sigv fsq fminq fmaxq).2,
      (c.auditory_filterbank sigv fsq fminq fmaxq).1,
      (c.auditory_filterbank sigv fsq fminq fmaxq).1.map c.env,
      (c.define_modulation_axis mfmin mfmax nmod).1,
      (c.auditory_filterbank sigv fsq fminq fmaxq).2⟩⟩, ?_, ?_⟩
  · unfold AMa_scalogramE
    simp only [checkInputs, if_neg hpos, exBind_ok]
    simp only [hdims, exBind_ok, hmax, hdim, hspecs, hlast]
  · intro i j
    exact accumFrom_cell specs i j

/-- Witness for the amended C1 theorem: the concrete two-channel run of the
counterexample, whose poisoned cell (5, 0) the theorem maps to NaN. -/
theorem AMa_scalogram_cell_accum_witness :
    ∃ r, AMa_scalogramE cW (PyV.arr [1]) (PyV.num 1) 1 (1/2) 2 1 70 6700 = Except.ok r
      ∧ r.AMsgram 5 0 = none := by
  obtain ⟨r, hok, hcell⟩ :=
    AMa_scalogram_cell_accum cW (PyV.arr [1]) (PyV.num 1) [1] 1 1 (1/2) 2 1 70 6700
      [6, 6] 6 6
      [updG (fun _ _ => 0) 5 0 (2 * 0), updG (fun _ _ => 0) 5 0 (2 * (1/2))] 1
      rfl rfl (by norm_num) rfl rfl rfl rfl rfl
  refine ⟨r, hok, ?_⟩
  rw [hcell 5 0]
  decide

/-- The fold of max over a list dominates its starting value. -/
theorem le_foldl_max (ys : List ℤ) : ∀ a : ℤ, a ≤ ys.foldl max a := by
  induction ys with
  | nil => intro a; simp
  | cons y ys ih => intro a; exact le_trans (le_max_left a y) (ih (max a y))

/-- The fold of max over a list dominates every member. -/
theorem mem_le_foldl_max (ys : List ℤ) : ∀ a x, x ∈ ys → x ≤ ys.foldl max a := by
  induction ys with
  | nil => intro a x h; cases h
  | cons y ys ih =>
      intro a x h
      rcases List.mem_cons.mp h with h | h
      · subst h; exact le_trans (le_max_right a x) (le_foldl_max ys (max a x))
      · exact ih (max a y) x h

/-- max(dims) dominates every collected sizing entry. -/
theorem maxList_ge (l : List ℤ) (m x : ℤ) (hm : maxList l = Except.ok m)
    (hx : x ∈ l) : x ≤ m := by
  cases l with
  | nil => cases hx
  | cons y ys =>
      simp only [maxList] at hm
      injection hm with hm
      subst hm
      rcases List.mem_cons.mp hx with h | h
      · subst h; exact le_foldl_max ys x
      · exact mem_le_foldl_max ys y x h

/-- Every sizing entry iwin + off + 1 of an in-range (frequency, window)
pair is a member of the collected dims list. -/
theorem sizingDims_mem (wc : ℕ → Except PyErr ℕ) (off : ℕ → Except PyErr ℤ) :
    ∀ (l : List ℕ) (d : List ℤ), sizingDims wc off l = Except.ok d →
    ∀ i n o w, i ∈ l → wc i = Except.ok n → off i = Except.ok o → w < n →
    ((w : ℤ) + o + 1) ∈ d := by
  intro l
  induction l with
  | nil => intro d hd i n o w hi; cases hi
  | cons a rest ih =>
      intro d hd i n o w hi hwc hoff hw
      simp only [sizingDims] at hd
      cases hna : wc a with
      | error e => rw [hna, exBind_error] at hd; cases hd
      | ok na =>
          rw [hna, exBind_ok] at hd
          cases hoa : off a with
          | error e => rw [hoa, exBind_error] at hd; cases hd
          | ok oa =>
              rw [hoa, exBind_ok] at hd
              cases hra : sizingDims wc off rest with
              | error e => rw [hra, exBind_error] at hd; cases hd
              | ok ds =>
                  rw [hra, exBind_ok] at hd
                  injection hd with hd
                  subst hd
                  rcases List.mem_cons.mp hi with h | h
                  · subst h
                    have h1 := hwc.symm.trans hna
                    injection h1 with h1
                    have h2 := hoff.symm.trans hoa
                    injection h2 with h2
                    subst h1; subst h2
                    have hmm : ((w : ℤ) + o + 1) ∈
                        (List.range n).map (fun x : ℕ => (x : ℤ) + o + 1) :=
                      List.mem_map.mpr ⟨w, List.mem_range.mpr hw, rfl⟩
                    exact List.mem_append_left _ hmm
                  · exact List.mem_append_right _ (ih ds hra i n o w h hwc hoff hw)

/-- Every per-channel sizing block of a successful AMa sizing pass is
contained in the overall dims list. -/
theorem AMaDimsAll_sub (c : Collab) (E : List (List ℚ)) (fsq wNT : ℚ)
    (axis : List ℚ) (nmod : ℕ) :
    ∀ (chs : List ℕ) (d : List ℤ),
    AMaDimsAll c E fsq wNT axis nmod chs = Except.ok d →
    ∀ ch, ch ∈ chs → ∀ Erow, npGetL E ch = Except.ok Erow →
    ∃ dch, sizingDims (wcAM c Erow fsq wNT axis) (offAM wNT axis)
        (List.range nmod) = Except.ok dch
      ∧ ∀ x, x ∈ dch → x ∈ d := by
  intro chs
  induction chs with
  | nil => intro d hd ch hch; cases hch
  | cons a rest ih =>
      intro d hd ch hch Erow hErow
      simp only [AMaDimsAll] at hd
      cases hEa : npGetL E a with
      | error e => rw [hEa, exBind_error] at hd; cases hd
      | ok Ea =>
          rw [hEa, exBind_ok] at hd
          cases hda : sizingDims (wcAM c Ea fsq wNT axis) (offAM wNT axis)
              (List.range nmod) with
          | error e => rw [hda, exBind_error] at hd; cases hd
          | ok da =>
              rw [hda, exBind_ok] at hd
              cases hra : AMaDimsAll c E fsq wNT axis nmod rest with
              | error e => rw [hra, exBind_error] at hd; cases hd
              | ok ds =>
                  rw [hra, exBind_ok] at hd
                  injection hd with hd
                  subst hd
                  rcases List.mem_cons.mp hch with h | h
                  · subst h
                    have h1 := hErow.symm.trans hEa
                    injection h1 with h1
                    subst h1
                    exact ⟨da, hda, fun x hx => List.mem_append_left _ hx⟩
                  · obtain ⟨dch, hdch, hsub⟩ := ih ds hra ch h Erow hErow
                    exact ⟨dch, hdch, fun x hx =>
                      List.mem_append_right _ (hsub x hx)⟩

/-- Inversion of an AMa window body: a successful body at (ifreq, iwin)
determines the axis frequency and places its write at
iwin + round(window_length/2/shift). -/
theorem bodyAM_index (c : Collab) (Erow : List ℚ) (fsq wNT : ℚ)
    (axis : List ℚ) (ifreq iwin : ℕ) (idx : ℤ) (v : ℚ)
    (hb : bodyAM c Erow fsq wNT axis ifreq iwin = Except.ok (idx, v)) :
    ∃ f, npGetL axis ifreq = Except.ok f
      ∧ idx = (iwin : ℤ) + halfShift (windowLength wNT f)
      ∧ offAM wNT axis ifreq = Except.ok (halfShift (windowLength wNT f)) := by
  unfold bodyAM at hb
  cases hf : npGetL axis ifreq with
  | error e => rw [hf, exBind_error] at hb; cases hb
  | ok f =>
      refine ⟨f, rfl, ?_, ?_⟩
      · simp only [hf, exBind_ok] at hb
        cases ht : npGetL (c.segment_windows Erow fsq (windowLength wNT f) shiftQ true)
            iwin with
        | error e => rw [ht, exBind_error] at hb; cases hb
        | ok temp =>
            simp only [ht, exBind_ok] at hb
            cases hp : npGetL (c.periodogram temp fsq [probeFreq, f]) 1 with
            | error e => rw [hp, exBind_error] at hb; cases hb
            | ok p =>
                simp only [hp, exBind_ok] at hb
                injection hb with hb
                cases hb
                rfl
      · unfold offAM
        rw [hf, exBind_ok]

/-- Inversion of an f0M window body, as for bodyAM_index. -/
theorem bodyF0_index (c : Collab) (f0c : List (Option ℚ)) (tYin : List ℚ)
    (fsYin wNT : ℚ) (axis : List ℚ) (ifreq iwin : ℕ) (idx : ℤ) (v : Option ℚ)
    (hb : bodyF0 c f0c tYin fsYin wNT axis ifreq iwin = Except.ok (idx, v)) :
    ∃ f, npGetL axis ifreq = Except.ok f
      ∧ idx = (iwin : ℤ) + halfShift (windowLength wNT f)
      ∧ offF0 wNT axis ifreq = Except.ok (halfShift (windowLength wNT f)) := by
  unfold bodyF0 at hb
  cases hf : npGetL axis ifreq with
  | error e => rw [hf, exBind_error] at hb; cases hb
  | ok f =>
      refine ⟨f, rfl, ?_, ?_⟩
      · simp only [hf, exBind_ok] at hb
        cases h0 : npGetL (c.segment_windows_f0 f0c fsYin (windowLength wNT f)
            shiftQ false) iwin with
        | error e => rw [h0, exBind_error] at hb; cases hb
        | ok f0Temp =>
            simp only [h0, exBind_ok] at hb
            cases ht : npGetL (c.segment_windows tYin fsYin (windowLength wNT f)
                shiftQ false) iwin with
            | error e => rw [ht, exBind_error] at hb; cases hb
            | ok tTemp =>
                simp only [ht, exBind_ok] at hb
                cases hv : npGetL (c.lombscargle tTemp f0Temp [probeFreq, f]).2 1 with
                | error e => rw [hv, exBind_error] at hb; cases hb
                | ok w =>
                    simp only [hv, exBind_ok] at hb
                    injection hb with hb
                    cases hb
                    rfl
      · unfold offF0
        rw [hf, exBind_ok]

/-- C9: in both scalograms, every row index written by the fill pass
(iwin + round(window_length/2/shift), for an in-range channel, frequency
and window of a successful run) is strictly smaller than the grid row
dimension computed by the sizing pass (the maximum over all combinations
of iwin + round(window_length/2/shift) + 1). -/
theorem scalogram_sizing_bounds (c : Collab) (E : List (List ℚ))
    (f0c : List (Option ℚ)) (tYin : List ℚ) (fsq fsYin wNT wNT2 : ℚ)
    (axis axis2 : List ℚ) (nmod nmod2 Nchan : ℕ) (dims dims2 : List ℤ)
    (dimZ dimZ2 : ℤ) (ichan ifreq iwin ifreq2 iwin2 : ℕ) (Erow : List ℚ)
    (n n2 : ℕ) (idx idx2 : ℤ) (v : ℚ) (v2 : Option ℚ)
    (hdims : AMaDimsAll c E fsq wNT axis nmod (List.range Nchan) = Except.ok dims)
    (hmax : maxList dims = Except.ok dimZ)
    (hch : ichan < Nchan)
    (hErow : npGetL E ichan = Except.ok Erow)
    (hif : ifreq < nmod)
    (hn : wcAM c Erow fsq wNT axis ifreq = Except.ok n)
    (hw : iwin < n)
    (hb : bodyAM c Erow fsq wNT axis ifreq iwin = Except.ok (idx, v))
    (hdims2 : sizingDims (wcF0 c f0c fsYin wNT2 axis2) (offF0 wNT2 axis2)
        (List.range nmod2) = Except.ok dims2)
    (hmax2 : maxList dims2 = Except.ok dimZ2)
    (hif2 : ifreq2 < nmod2)
    (hn2 : wcF0 c f0c fsYin wNT2 axis2 ifreq2 = Except.ok n2)
    (hw2 : iwin2 < n2)
    (hb2 : bodyF0 c f0c tYin fsYin wNT2 axis2 ifreq2 iwin2 = Except.ok (idx2, v2)) :
    idx < dimZ ∧ idx2 < dimZ2 := by
  constructor
  · obtain ⟨f, _, hidx, hoff⟩ := bodyAM_index c Erow fsq wNT axis ifreq iwin idx v hb
    obtain ⟨dch, hblock, hsub⟩ := AMaDimsAll_sub c E fsq wNT axis nmod
      (List.range Nchan) dims hdims ichan (List.mem_range.mpr hch) Erow hErow
    have hmem : ((iwin : ℤ) + halfShift (windowLength wNT f) + 1) ∈ dims :=
      hsub _ (sizingDims_mem (wcAM c Erow fsq wNT axis) (offAM wNT axis)
        (List.range nmod) dch hblock ifreq n (halfShift (windowLength wNT f))
        iwin (List.mem_range.mpr hif) hn hoff hw)
    have := maxList_ge dims dimZ _ hmax hmem
    omega
  · obtain ⟨f, _, hidx, hoff⟩ :=
      bodyF0_index c f0c tYin fsYin wNT2 axis2 ifreq2 iwin2 idx2 v2 hb2
    have hmem : ((iwin2 : ℤ) + halfShift (windowLength wNT2 f) + 1) ∈ dims2 :=
      sizingDims_mem (wcF0 c f0c fsYin wNT2 axis2) (offF0 wNT2 axis2)
        (List.range nmod2) dims2 hdims2 ifreq2 n2
        (halfShift (windowLength wNT2 f)) iwin2 (List.mem_range.mpr hif2)
        hn2 hoff hw2
    have := maxList_ge dims2 dimZ2 _ hmax2 hmem
    omega

/-- Witness for C9 at a concrete run of both pipelines: the only write of
each has row index 5, and the sizing passes produce dimension 6. -/
theorem scalogram_sizing_bounds_witness : (5 : ℤ) < 6 ∧ (5 : ℤ) < 6 :=
  scalogram_sizing_bounds cW [[0], [1]] [some 440] [1] 1 1 1 1 [1] [1] 1 1 2
    [6, 6] [6] 6 6 0 0 0 0 0 [0] 1 1 5 5 0 (some 2)
    rfl (by decide) (by omega) rfl (by omega) rfl (by omega) (by decide)
    (by decide) (by decide) (by omega) rfl (by omega) (by decide)

/-- A successful exMapM preserves the list length. -/
theorem exMapM_ok_length {α β : Type} (f : α → Except PyErr β) :
    ∀ (l : List α) (r : List β), exMapM f l = Except.ok r →
    r.length = l.length := by
  intro l
  induction l with
  | nil =>
      intro r h
      simp only [exMapM] at h
      injection h with h
      subst h
      rfl
  | cons x xs ih =>
      intro r h
      simp only [exMapM] at h
      cases hx : f x with
      | error e => rw [hx, exBind_error] at h; cases h
      | ok y =>
          simp only [hx, exBind_ok] at h
          cases hxs : exMapM f xs with
          | error e => rw [hxs, exBind_error] at h; cases h
          | ok ys =>
              simp only [hxs, exBind_ok] at h
              injection h with h
              subst h
              simp [ih ys hxs]

/-- A successful exMapM maps the i-th input to the i-th output. -/
theorem exMapM_ok_get {α β : Type} (f : α → Except PyErr β) :
    ∀ (l : List α) (r : List β), exMapM f l = Except.ok r →
    ∀ i x, l.get? i = some x →
    ∃ y, f x = Except.ok y ∧ r.get? i = some y := by
  intro l
  induction l with
  | nil => intro r h i x hx; simp at hx
  | cons a xs ih =>
      intro r h i x hx
      simp only [exMapM] at h
      cases ha : f a with
      | error e => rw [ha, exBind_error] at h; cases h
      | ok y =>
          simp only [ha, exBind_ok] at h
          cases hxs : exMapM f xs with
          | error e => rw [hxs, exBind_error] at h; cases h
          | ok ys =>
              simp only [hxs, exBind_ok] at h
              injection h with h
              subst h
              match i with
              | 0 =>
                  simp only [List.get?_cons_zero] at hx
                  injection hx with hx
                  subst hx
                  exact ⟨y, ha, rfl⟩
              | Nat.succ i2 =>
                  simp only [List.get?_cons_succ] at hx
                  exact ih ys hxs i2 x hx

/-- C6: on every successful AMa_spectrum run, the matrix has one column per
auditory channel, and column ichan equals 2 times the periodogram of the
envelope row E[ichan, :] (magnitude of the analytic signal of the
filterbank output) evaluated at exactly the f_spectra frequencies; each
column has length len f_spectra, giving an Nmod-by-Nchan power matrix. -/
theorem AMa_spectrum_columns (c : Collab) (sig fs : PyV) (sigv : List ℚ)
    (fsq mfmin mfmax : ℚ) (nmod : ℕ) (fminq fmaxq : ℚ) (r : AMaSpecRet)
    (hsig : sig = PyV.arr sigv) (hfs : fs = PyV.num fsq)
    (hok : AMa_spectrumE c sig fs mfmin mfmax nmod fminq fmaxq = Except.ok r) :
    r.AMspec.length = (c.auditory_filterbank sigv fsq fminq fmaxq).2.length
    ∧ ∀ ichan Erow,
        ichan < (c.auditory_filterbank sigv fsq fminq fmaxq).2.length →
        npGetL ((c.auditory_filterbank sigv fsq fminq fmaxq).1.map c.env) ichan
          = Except.ok Erow →
        r.AMspec.get? ichan = some ((c.periodogram Erow fsq
            (c.define_modulation_axis mfmin mfmax nmod).1).map (fun x => 2 * x))
        ∧ (c.periodogram Erow fsq
            (c.define_modulation_axis mfmin mfmax nmod).1).length
          = (c.define_modulation_axis mfmin mfmax nmod).1.length := by
  subst hsig; subst hfs
  unfold AMa_spectrumE at hok
  by_cases hq : fsq ≤ 0
  · simp only [checkInputs, if_pos hq, exBind_error] at hok
    cases hok
  · simp only [checkInputs, if_neg hq, exBind_ok] at hok
    cases hm : exMapM
        (AMaSpecCol c ((c.auditory_filterbank sigv fsq fminq fmaxq).1.map c.env)
          fsq (c.define_modulation_axis mfmin mfmax nmod).1)
        (List.range (c.auditory_filterbank sigv fsq fminq fmaxq).2.length) with
    | error e => rw [hm, exBind_error] at hok; cases hok
    | ok cols =>
        simp only [hm, exBind_ok] at hok
        injection hok with hok
        subst hok
        constructor
        · have hl := exMapM_ok_length _ _ _ hm
          simpa using hl
        · intro ichan Erow hich hErow
          have hg : (List.range
              (c.auditory_filterbank sigv fsq fminq fmaxq).2.length).get? ichan
              = some ichan := List.get?_range hich
          obtain ⟨y, hy, hry⟩ := exMapM_ok_get _ _ _ hm ichan ichan hg
          unfold AMaSpecCol at hy
          rw [hErow, exBind_ok] at hy
          by_cases hlen : (c.periodogram Erow fsq
              (c.define_modulation_axis mfmin mfmax nmod).1).length
              = (c.define_modulation_axis mfmin mfmax nmod).1.length
          · rw [if_pos hlen] at hy
            injection hy with hy
            subst hy
            exact ⟨hry, hlen⟩
          · rw [if_neg hlen] at hy; cases hy

/-- Witness for C6 at a concrete two-channel run. -/
theorem AMa_spectrum_columns_witness :
    (⟨[[0], [1]], [100, 200], [1],
        ⟨[1], [100, 200], [[0], [1]], [[0], [1]], [1], [1/2, 2]⟩⟩ :
      AMaSpecRet).AMspec.length = (cW.auditory_filterbank [1] 1 70 6700).2.length
    ∧ (⟨[[0], [1]], [100, 200], [1],
        ⟨[1], [100, 200], [[0], [1]], [[0], [1]], [1], [1/2, 2]⟩⟩ :
      AMaSpecRet).AMspec.get? 0 = some ((cW.periodogram [0] 1
        (cW.define_modulation_axis (1/2) 200 1).1).map (fun x => 2 * x)) := by
  have h := AMa_spectrum_columns cW (PyV.arr [1]) (PyV.num 1) [1] 1 (1/2) 200 1 70 6700
    ⟨[[0], [1]], [100, 200], [1],
      ⟨[1], [100, 200], [[0], [1]], [[0], [1]], [1], [1/2, 2]⟩⟩
    rfl rfl (by decide)
  exact ⟨h.1, (h.2 0 [0] (by decide) rfl).1⟩

/-- Masking an equal-length array with the not-NaN mask of a track selects
exactly the entries paired with the track's non-NaN samples, in order. -/
theorem maskFilter_pure : ∀ (a : List (Option ℚ)) (b : List ℚ),
    a.length = b.length →
    ((b.zip (a.map Option.isSome)).filter (fun p => p.2)).map (fun p => p.1)
      = ((a.zip b).filter (fun p => p.1.isSome)).map Prod.snd := by
  intro a
  induction a with
  | nil =>
      intro b hb
      cases b with
      | nil => rfl
      | cons t ts => simp at hb
  | cons o rest ih =>
      intro b hb
      cases b with
      | nil => simp at hb
      | cons t ts =>
          have hlen : rest.length = ts.length := by simpa using hb
          cases o with
          | some v => simpa using ih ts hlen
          | none => simpa using ih ts hlen

/-- Dropping NaNs from a track lists exactly the non-NaN values paired with
an equal-length companion array. -/
theorem filterMap_pairs : ∀ (a : List (Option ℚ)) (b : List ℚ),
    a.length = b.length →
    a.filterMap id
      = ((a.zip b).filter (fun p => p.1.isSome)).map (fun p => p.1.getD 0) := by
  intro a
  induction a with
  | nil =>
      intro b hb
      cases b with
      | nil => rfl
      | cons t ts => simp at hb
  | cons o rest ih =>
      intro b hb
      cases b with
      | nil => simp at hb
      | cons t ts =>
          have hlen : rest.length = ts.length := by simpa using hb
          cases o with
          | some v => simpa using ih ts hlen
          | none => simpa using ih ts hlen

/-- C10: in f0M_spectrum, whenever the cleaned pitch track is no longer
than the undersampled time axis (ceil(len sig / undersample) entries), the
time axis truncated to the track length and masked with the track's
not-NaN mask succeeds, f0_wo_nan and t_wo_nan have equal length, and
element i of t_wo_nan is the time stamp paired with element i of
f0_wo_nan; the whole f0M_spectrum call then returns a result. -/
theorem f0M_time_pairing (c : Collab) (sigv : List ℚ)
    (fs mfmin mfmax : ℚ) (nmod u : ℕ) (fminq fmaxq yth ap0th maxj mind : ℚ)
    (f0c : List (Option ℚ))
    (hT : f0Track c sigv fs fminq fmaxq yth u ap0th maxj mind = Except.ok f0c)
    (hlen : f0c.length ≤ (sigv.length + u - 1) / u) :
    boolMask ((strideQ (timeAxis sigv.length fs) u).take f0c.length)
        (f0c.map Option.isSome)
      = Except.ok (((f0c.zip ((strideQ (timeAxis sigv.length fs) u).take
          f0c.length)).filter (fun p => p.1.isSome)).map Prod.snd)
    ∧ (f0c.filterMap id).length
      = (((f0c.zip ((strideQ (timeAxis sigv.length fs) u).take
          f0c.length)).filter (fun p => p.1.isSome)).map Prod.snd).length
    ∧ (f0c.filterMap id).zip
        (((f0c.zip ((strideQ (timeAxis sigv.length fs) u).take
          f0c.length)).filter (fun p => p.1.isSome)).map Prod.snd)
      = ((f0c.zip ((strideQ (timeAxis sigv.length fs) u).take
          f0c.length)).filter (fun p => p.1.isSome)).map
            (fun p => (p.1.getD 0, p.2))
    ∧ isOkE (f0M_spectrumE c sigv fs mfmin mfmax nmod u fminq fmaxq yth
        ap0th maxj mind) = true := by
  have hstride : (strideQ (timeAxis sigv.length fs) u).length
      = (sigv.length + u - 1) / u := by
    simp [strideQ, timeAxis]
  have htr : ((strideQ (timeAxis sigv.length fs) u).take f0c.length).length
      = f0c.length := by
    rw [List.length_take, hstride]
    omega
  have hl2 : f0c.length
      = ((strideQ (timeAxis sigv.length fs) u).take f0c.length).length :=
    htr.symm
  have h1 : boolMask ((strideQ (timeAxis sigv.length fs) u).take f0c.length)
      (f0c.map Option.isSome)
      = Except.ok (((f0c.zip ((strideQ (timeAxis sigv.length fs) u).take
          f0c.length)).filter (fun p => p.1.isSome)).map Prod.snd) := by
    unfold boolMask
    rw [if_pos (by simp [htr])]
    rw [maskFilter_pure f0c _ hl2]
  have h2 : f0c.filterMap id
      = ((f0c.zip ((strideQ (timeAxis sigv.length fs) u).take
          f0c.length)).filter (fun p => p.1.isSome)).map (fun p => p.1.getD 0) :=
    filterMap_pairs f0c _ hl2
  refine ⟨h1, ?_, ?_, ?_⟩
  · rw [h2]
    simp
  · rw [h2, List.zip_map']
  · unfold f0M_spectrumE
    rw [hT, exBind_ok]
    simp only [h1, exBind_ok]
    rfl

/-- Witness for C10 at a concrete one-sample run. -/
theorem f0M_time_pairing_witness :
    boolMask ((strideQ (timeAxis ([1] : List ℚ).length 1) 20).take
        ([some 440] : List (Option ℚ)).length)
        (([some 440] : List (Option ℚ)).map Option.isSome)
      = Except.ok (((([some 440] : List (Option ℚ)).zip
          ((strideQ (timeAxis ([1] : List ℚ).length 1) 20).take
            ([some 440] : List (Option ℚ)).length)).filter
              (fun p => p.1.isSome)).map Prod.snd)
    ∧ isOkE (f0M_spectrumE cW [1] 1 (1/2) 200 1 20 60 550 (1/5) (4/5) 10 (2/25))
      = true := by
  have h := f0M_time_pairing cW [1] 1 (1/2) 200 1 20 60 550 (1/5) (4/5) 10 (2/25)
    [some 440] rfl (by decide)
  exact ⟨h.1, h.2.2.2⟩

/-- C5: f0M_spectrum computes exactly the claimed composition: the mock_yin
track converted to Hz as 440 * 2^track, samples with aperiodicity strictly
above ap0_thresh marked NaN, remove_artifacts applied, NaN samples and
their paired time stamps dropped, a Lomb-Scargle periodogram of the
remaining track versus time evaluated at the f_spectra frequencies and
scaled by 2, and the result bin-averaged by interpmean over
f_spectra_intervals; the step bundle carries the undersampled time axis,
the full track, and the modulation axis with its edges. -/
theorem f0M_spectrum_steps (c : Collab) (sigv : List ℚ)
    (fs mfmin mfmax : ℚ) (nmod u : ℕ) (fminq fmaxq yth ap0th maxj mind : ℚ)
    (f0r ap0 : List ℚ) (f0m : List (Option ℚ)) (tw : List ℚ)
    (hyin : c.mock_yin sigv fs fminq fmaxq yth u = (f0r, ap0))
    (hg : gateByAp (f0r.map (fun x => 440 * c.pow2 x)) ap0 ap0th = Except.ok f0m)
    (hb : boolMask ((strideQ (timeAxis sigv.length fs) u).take
            (c.remove_artifacts f0m (fs / (u : ℚ)) maxj mind (fminq, fmaxq)
              (2/5, 5/2) 1500).length)
          ((c.remove_artifacts f0m (fs / (u : ℚ)) maxj mind (fminq, fmaxq)
              (2/5, 5/2) 1500).map Option.isSome)
          = Except.ok tw) :
    f0M_spectrumE c sigv fs mfmin mfmax nmod u fminq fmaxq yth ap0th maxj mind =
      Except.ok
        ⟨c.interpmean (c.define_modulation_axis mfmin mfmax nmod).1
            ((c.lombscargle tw
                (((c.remove_artifacts f0m (fs / (u : ℚ)) maxj mind (fminq, fmaxq)
                    (2/5, 5/2) 1500).filterMap id).map some)
                (c.define_modulation_axis mfmin mfmax nmod).1).2.map
              (Option.map (fun x => 2 * x)))
            (c.define_modulation_axis mfmin mfmax nmod).2,
          (c.define_modulation_axis mfmin mfmax nmod).1,
          ⟨(List.range (c.remove_artifacts f0m (fs / (u : ℚ)) maxj mind
                (fminq, fmaxq) (2/5, 5/2) 1500).length).map
              (fun i => ((i + 1 : ℕ) : ℚ) / (fs / (u : ℚ))),
            c.remove_artifacts f0m (fs / (u : ℚ)) maxj mind (fminq, fmaxq)
              (2/5, 5/2) 1500,
            (c.define_modulation_axis mfmin mfmax nmod).1,
            (c.define_modulation_axis mfmin mfmax nmod).2⟩⟩ := by
  unfold f0M_spectrumE f0Track
  simp only [hyin, exBind_ok, hg, hb]

/-- Witness for C5 at a concrete one-sample run. -/
theorem f0M_spectrum_steps_witness :
    f0M_spectrumE cW [1] 1 (1/2) 200 1 20 60 550 (1/5) (4/5) 10 (2/25) =
      Except.ok
        ⟨cW.interpmean (cW.define_modulation_axis (1/2) 200 1).1
            ((cW.lombscargle [1]
                (((cW.remove_artifacts [some 440] ((1 : ℚ) / (20 : ℕ)) 10 (2/25)
                    (60, 550) (2/5, 5/2) 1500).filterMap id).map some)
                (cW.define_modulation_axis (1/2) 200 1).1).2.map
              (Option.map (fun x => 2 * x)))
            (cW.define_modulation_axis (1/2) 200 1).2,
          (cW.define_modulation_axis (1/2) 200 1).1,
          ⟨(List.range (cW.remove_artifacts [some 440] ((1 : ℚ) / (20 : ℕ)) 10 (2/25)
                (60, 550) (2/5, 5/2) 1500).length).map
              (fun i => ((i + 1 : ℕ) : ℚ) / ((1 : ℚ) / (20 : ℕ))),
            cW.remove_artifacts [some 440] ((1 : ℚ) / (20 : ℕ)) 10 (2/25)
              (60, 550) (2/5, 5/2) 1500,
            (cW.define_modulation_axis (1/2) 200 1).1,
            (cW.define_modulation_axis (1/2) 200 1).2⟩⟩ :=
  f0M_spectrum_steps cW [1] 1 (1/2) 200 1 20 60 550 (1/5) (4/5) 10 (2/25)
    [0] [0] [some 440] [1] rfl (by decide) (by decide)

/-- Witness for C7 at a concrete window of each pipeline. -/
theorem scalogram_window_placement_witness :
    bodyAM cW [0] 1 1 [1] 0 0 =
      Except.ok ((0 : ℤ) + pyRound ((1 : ℚ) / 1 / 2 / (1/10)), 2 * 0)
    ∧ bodyF0 cW [some 440] [1] 1 1 [1] 0 0 =
      Except.ok ((0 : ℤ) + pyRound ((1 : ℚ) / 1 / 2 / (1/10)),
        Option.map (fun x => 2 * x) (some (1 : ℚ))) :=
  ⟨(scalogram_window_placement cW [0] [some 440] [1] 1 1 1 [1] 0 0 1 rfl).1
      [0] 0 rfl (by decide),
   (scalogram_window_placement cW [0] [some 440] [1] 1 1 1 [1] 0 0 1 rfl).2
      [some 440] [1] (some 1) rfl rfl (by decide)⟩

end PyTMST
